import Mathlib

/-!
Shallow embedding of the vocabulary flashcard application's
data-consistency core: the `ApiManager` word-collection operations
(add / update / delete / fetch / save, with retry) and the
`StorageManager` streak algorithm and local cache, together with
proofs of the collection-level invariants.

Conventions of the embedding:
* JavaScript values that may be `undefined` are modelled with `Option`.
* The browser `localStorage` plus the remote JSONBin document are
  modelled by an explicit `World` record threaded through operations.
* Network nondeterminism is an oracle `Nat → Attempt` giving the
  outcome of each HTTP attempt; `request` mirrors the retry loop of
  `ApiManager.request`, recording the number of attempts made and the
  (millisecond) delays inserted between them.
-/

namespace VocabApp

/-- A vocabulary entry, as stored in the `words` array of the document.
Fields mirror the object literal built by `ApiManager.addWord`. -/
structure Word where
  id : String
  date : String
  wordNumber : Nat
  english : String
  ipa : String
  context : String
  meaning : String
  banglaMeanings : List String
  synonyms : List String
  antonyms : List String
  isLearned : Bool
  createdAt : String
  updatedAt : Option String
deriving Repr, DecidableEq

/-- JavaScript `String.prototype.trim`, modelled over the character
list: drop leading and trailing whitespace. -/
def jsTrim (s : String) : String :=
  ⟨((s.data.dropWhile Char.isWhitespace).reverse.dropWhile
      Char.isWhitespace).reverse⟩

/-- JavaScript `s.split(',')`, modelled over the character list:
cut at every comma, keeping empty segments (`"" ↦ [""]`,
`"," ↦ ["", ""]`). -/
def splitCommaAux : List Char → List (List Char)
  | [] => [[]]
  | c :: cs =>
    if c = ',' then [] :: splitCommaAux cs
    else
      match splitCommaAux cs with
      | [] => [[c]]
      | h :: t => (c :: h) :: t

/-- `s.split(',')` as a list of strings. -/
def jsSplitComma (s : String) : List String :=
  (splitCommaAux s.data).map String.mk

/-- A value handed to `ApiManager.parseArrayField`: a string, an
already-list-shaped array of strings, or anything else (undefined,
null, ...), which JavaScript's dynamic checks route to the final
`return []`. -/
inductive FieldInput where
  | str (s : String)
  | arr (l : List String)
  | other
deriving Repr, DecidableEq

/-- `ApiManager.parseArrayField`: arrays are filtered by
`item && item.trim()` (kept when the trimmed item is non-empty, but the
item itself is NOT trimmed); non-blank strings are comma-split, each
segment trimmed, empty segments dropped via `.filter(Boolean)`;
everything else yields `[]`. -/
def parseArrayField : FieldInput → List String
  | .arr l => l.filter (fun item => jsTrim item != "")
  | .str s =>
    if jsTrim s != "" then
      ((jsSplitComma s).map jsTrim).filter (fun x => x != "")
    else []
  | .other => []

/-- Lexicographic order on character lists, the order under which
`YYYY-MM-DD` date strings sort chronologically. -/
def charListLt : List Char → List Char → Bool
  | [], [] => false
  | [], _ :: _ => true
  | _ :: _, [] => false
  | a :: as, b :: bs =>
    if a < b then true
    else if b < a then false
    else charListLt as bs

/-- `a` is an earlier date string than `b` (strict lexicographic
comparison, chronological for `YYYY-MM-DD`). -/
def dateLt (a b : String) : Bool := charListLt a.data b.data

/-- `ApiManager.getNextWordNumber(allWords, date)`: the `date` argument
is the raw `wordData.date`, which may be `undefined` (`none`); the
strict equality `w.date === date` then holds for no stored word. -/
def getNextWordNumber (allWords : List Word) (date : Option String) : Nat :=
  (allWords.filter (fun w => some w.date == date)).length + 1

/-- JavaScript `v || dflt` for an optional string: `undefined` and the
empty string are falsy. -/
def jsOrElse (v : Option String) (dflt : String) : String :=
  match v with
  | some s => if s = "" then dflt else s
  | none => dflt

/-- The raw input object accepted by `ApiManager.addWord`. -/
structure WordInput where
  date : Option String
  english : String
  ipa : Option String
  context : Option String
  meaning : Option String
  banglaMeanings : FieldInput
  synonyms : FieldInput
  antonyms : FieldInput
deriving Repr, DecidableEq

/-- The pure core of `ApiManager.addWord`: given the fetched collection
and the ambient nondeterminism (fresh id, today's date string, creation
timestamp), build the new word and append it. -/
def addWordPure (wordData : WordInput) (newId today createdAt : String)
    (allWords : List Word) : Word × List Word :=
  let newWord : Word :=
    { id := newId
      date := jsOrElse wordData.date today
      wordNumber := getNextWordNumber allWords wordData.date
      english := wordData.english
      ipa := wordData.ipa.getD ""
      context := wordData.context.getD ""
      meaning := wordData.meaning.getD ""
      banglaMeanings := parseArrayField wordData.banglaMeanings
      synonyms := parseArrayField wordData.synonyms
      antonyms := parseArrayField wordData.antonyms
      isLearned := false
      createdAt := createdAt
      updatedAt := none }
  (newWord, allWords ++ [newWord])

/-- The `updates` object accepted by `ApiManager.updateWord`: an
arbitrary subset of word fields (a JavaScript object spread imposes no
restriction on which keys may appear, so `id`, `date`, `createdAt` and
`wordNumber` can occur in a patch as well). -/
structure WordPatch where
  id : Option String
  date : Option String
  wordNumber : Option Nat
  english : Option String
  ipa : Option String
  context : Option String
  meaning : Option String
  banglaMeanings : Option FieldInput
  synonyms : Option FieldInput
  antonyms : Option FieldInput
  isLearned : Option Bool
  createdAt : Option String
deriving Repr, DecidableEq

/-- The patch with every field absent. -/
def emptyPatch : WordPatch :=
  { id := none, date := none, wordNumber := none, english := none
    ipa := none, context := none, meaning := none
    banglaMeanings := none, synonyms := none, antonyms := none
    isLearned := none, createdAt := none }

/-- The merge `{...allWords[index], ...updates, banglaMeanings: ...,
synonyms: ..., antonyms: ..., updatedAt: now}` of
`ApiManager.updateWord`: fields present in the patch replace the old
ones, the three list fields are re-parsed when present, and
`updatedAt` is always refreshed. -/
def applyPatch (old : Word) (p : WordPatch) (now : String) : Word :=
  { id := p.id.getD old.id
    date := p.date.getD old.date
    wordNumber := p.wordNumber.getD old.wordNumber
    english := p.english.getD old.english
    ipa := p.ipa.getD old.ipa
    context := p.context.getD old.context
    meaning := p.meaning.getD old.meaning
    banglaMeanings :=
      match p.banglaMeanings with
      | some f => parseArrayField f
      | none => old.banglaMeanings
    synonyms :=
      match p.synonyms with
      | some f => parseArrayField f
      | none => old.synonyms
    antonyms :=
      match p.antonyms with
      | some f => parseArrayField f
      | none => old.antonyms
    isLearned := p.isLearned.getD old.isLearned
    createdAt := p.createdAt.getD old.createdAt
    updatedAt := some now }

/-- The pure core of `ApiManager.updateWord`: find the first word with
the given id (`findIndex`), replace it in place by the merged word;
`none` models the thrown `'Word not found'`. -/
def updateWordPure (wordId : String) (p : WordPatch) (now : String) :
    List Word → Option (Word × List Word)
  | [] => none
  | x :: xs =>
    if x.id = wordId then
      let u := applyPatch x p now
      some (u, u :: xs)
    else
      match updateWordPure wordId p now xs with
      | none => none
      | some r => some (r.1, x :: r.2)

/-- The re-numbering loop of `ApiManager.deleteWord`: walk the
remaining collection in order and assign `number++` (starting at `n`)
to every word whose date matches `d`, leaving all other words
untouched. -/
def renumberFrom (d : String) : Nat → List Word → List Word
  | _, [] => []
  | n, w :: ws =>
    if w.date = d then
      { w with wordNumber := n } :: renumberFrom d (n + 1) ws
    else
      w :: renumberFrom d n ws

/-- The pure core of `ApiManager.deleteWord`: filter out the id,
detect not-found by unchanged length (`none` models the thrown
`'Word not found'`), then re-number the deleted word's date starting
from 1. -/
def deleteWordPure (wordId : String) (allWords : List Word) :
    Option (List Word) :=
  let filteredWords := allWords.filter (fun w => w.id != wordId)
  if filteredWords.length = allWords.length then none
  else
    match allWords.find? (fun w => w.id == wordId) with
    | some deletedWord => some (renumberFrom deletedWord.date 1 filteredWords)
    | none => some filteredWords

/-- `StorageManager`'s streak record `{currentStreak, lastActiveDate}`;
`lastActiveDate` is `null` (`none`) for a first-time user. -/
structure StreakData where
  currentStreak : Nat
  lastActiveDate : Option String
deriving Repr, DecidableEq

/-- `StorageManager.updateStreak`, with the clock passed explicitly as
today's and yesterday's `YYYY-MM-DD` strings: returns the new streak
count together with the streak record left in storage. -/
def updateStreak (today yesterday : String) (s : StreakData) :
    Nat × StreakData :=
  if s.lastActiveDate = some today then
    (s.currentStreak, s)
  else
    let newStreak :=
      if s.lastActiveDate = some yesterday then s.currentStreak + 1
      else if s.lastActiveDate = none then 1
      else 1
    (newStreak, { currentStreak := newStreak, lastActiveDate := some today })

/-- Outcome of one HTTP attempt: success, or failure that is or is not
an `AbortError`. -/
inductive Attempt where
  | ok
  | fail (abort : Bool)
deriving Repr, DecidableEq

/-- Observable outcome of `ApiManager.request`: whether it ultimately
succeeded, how many attempts were made, and the list of millisecond
delays slept between consecutive attempts. -/
structure ReqOut where
  ok : Bool
  attempts : Nat
  delays : List Nat
deriving Repr, DecidableEq

/-- `ApiManager.request(url, options, retries)`: try attempt `i`; on
failure, if retries remain and the error is not an `AbortError`, sleep
1000 ms and recurse with `retries - 1`; otherwise give up. -/
def request (oracle : Nat → Attempt) : Nat → Nat → ReqOut
  | i, 0 =>
    match oracle i with
    | .ok => { ok := true, attempts := 1, delays := [] }
    | .fail _ => { ok := false, attempts := 1, delays := [] }
  | i, retries + 1 =>
    match oracle i with
    | .ok => { ok := true, attempts := 1, delays := [] }
    | .fail ab =>
      if ab then { ok := false, attempts := 1, delays := [] }
      else
        let t := request oracle (i + 1) retries
        { ok := t.ok, attempts := t.attempts + 1, delays := 1000 :: t.delays }

/-- The stores visible to the word operations: the credentials held in
`localStorage`, the local words cache (`vocab_local_words`), and the
remote bin's `record.words` field (`none` models a document without a
`words` array, read back as `[]` by `result.record?.words || []`). -/
structure World where
  apiKey : String
  binId : String
  cache : List Word
  remote : Option (List Word)
deriving Repr, DecidableEq

/-- Result of `ApiManager.fetchAllWords`: the words returned, the
stores afterwards, and how many HTTP attempts were issued (0 when the
call never touched the network). -/
structure FetchOut where
  words : List Word
  world : World
  attempts : Nat
deriving Repr, DecidableEq

/-- `ApiManager.fetchAllWords`: with no bin id configured, return the
local cache; otherwise issue the GET through `request` — on success
cache and return `record?.words || []`, on failure (retries exhausted)
fall back to the local cache. Only `binId` is checked; a missing
`apiKey` does not suppress the remote call. -/
def fetchAllWords (w : World) (oracle : Nat → Attempt) : FetchOut :=
  if w.binId = "" then
    { words := w.cache, world := w, attempts := 0 }
  else
    let r := request oracle 0 2
    if r.ok then
      let words := w.remote.getD []
      { words := words, world := { w with cache := words }, attempts := r.attempts }
    else
      { words := w.cache, world := w, attempts := r.attempts }

/-- Result of `ApiManager.saveAllWords`: the reported success flag, the
stores afterwards, and the number of HTTP attempts issued. -/
structure SaveOut where
  ok : Bool
  world : World
  attempts : Nat
deriving Repr, DecidableEq

/-- `ApiManager.saveAllWords`: with no bin id configured, write the
cache and report success; otherwise PUT the collection — on success the
remote document and the cache are both updated, on failure the cache is
still written as a fallback and `false` is reported. -/
def saveAllWords (w : World) (oracle : Nat → Attempt) (words : List Word) :
    SaveOut :=
  if w.binId = "" then
    { ok := true, world := { w with cache := words }, attempts := 0 }
  else
    let r := request oracle 0 2
    if r.ok then
      { ok := true
        world := { w with remote := some words, cache := words }
        attempts := r.attempts }
    else
      { ok := false, world := { w with cache := words }, attempts := r.attempts }

/-- `ApiManager.addWord`: fetch, build and append the new word, save,
and return the new word (whatever the save outcome). -/
def addWord (w : World) (fetchOracle saveOracle : Nat → Attempt)
    (wordData : WordInput) (newId today createdAt : String) :
    Word × World :=
  let f := fetchAllWords w fetchOracle
  let r := addWordPure wordData newId today createdAt f.words
  (r.1, (saveAllWords f.world saveOracle r.2).world)

/-- `ApiManager.updateWord`: fetch, merge the patch over the first word
with the given id (error when absent), save, return the merged word. -/
def updateWord (w : World) (fetchOracle saveOracle : Nat → Attempt)
    (wordId : String) (updates : WordPatch) (now : String) :
    Except String Word × World :=
  let f := fetchAllWords w fetchOracle
  match updateWordPure wordId updates now f.words with
  | none => (.error "Word not found", f.world)
  | some r => (.ok r.1, (saveAllWords f.world saveOracle r.2).world)

/-- `ApiManager.deleteWord`: fetch, remove the word (error when
absent), re-number its date, save, return `true`. -/
def deleteWord (w : World) (fetchOracle saveOracle : Nat → Attempt)
    (wordId : String) : Except String Bool × World :=
  let f := fetchAllWords w fetchOracle
  match deleteWordPure wordId f.words with
  | none => (.error "Word not found", f.world)
  | some result => (.ok true, (saveAllWords f.world saveOracle result).world)

/-- `ApiManager.getTotalWordCount`: length of the fetched collection. -/
def getTotalWordCount (w : World) (oracle : Nat → Attempt) : Nat :=
  (fetchAllWords w oracle).words.length

/-- A word with its `wordNumber` blanked out: two words agree under
`clearNum` exactly when they agree on every field except the number. -/
def clearNum (x : Word) : Word := { x with wordNumber := 0 }

/-- The per-date numbering invariant: the `wordNumber` values of the
words with date `d`, in collection order, are exactly `1, 2, ..., k`
where `k` is their count. -/
def dateNumbering (d : String) (l : List Word) : Bool :=
  (l.filter (fun w => w.date == d)).map Word.wordNumber ==
    List.range' 1 (l.filter (fun w => w.date == d)).length

/-- A concrete word for test collections; only the identity-relevant
fields vary. -/
def sampleWord (i d : String) (n : Nat) : Word :=
  { id := i, date := d, wordNumber := n, english := "word", ipa := ""
    context := "", meaning := "", banglaMeanings := [], synonyms := []
    antonyms := [], isLearned := false
    createdAt := "2026-10-01T00:00:00.000Z", updatedAt := none }

/-- Oracle under which every network attempt fails with an ordinary
(non-abort) error. -/
def alwaysFail : Nat → Attempt := fun _ => .fail false

/-- Oracle under which every network attempt succeeds. -/
def alwaysOk : Nat → Attempt := fun _ => .ok

/-- Oracle under which the first two attempts fail with ordinary
errors and the third succeeds. -/
def thirdTimeLucky : Nat → Attempt := fun i => if i < 2 then .fail false else .ok

/-- A world whose credentials lack the access key but have a document
id, with an empty remote document. -/
def noKeyWorld : World :=
  { apiKey := "", binId := "bin1", cache := [], remote := some [] }

/-- A world with no credentials at all, holding one cached word dated
2026-10-11. -/
def offlineWorld : World :=
  { apiKey := "", binId := ""
    cache := [sampleWord "a" "2026-10-11" 1], remote := none }

/-- A concrete `addWord` input dated 2026-10-11. -/
def sampleInput : WordInput :=
  { date := some "2026-10-11", english := "hello", ipa := none
    context := none, meaning := none
    banglaMeanings := .str "x, y", synonyms := .other, antonyms := .arr [] }

/-- The `sampleInput` with its date field absent (`undefined`). -/
def sampleInputNoDate : WordInput :=
  { date := none, english := "hello", ipa := none
    context := none, meaning := none
    banglaMeanings := .str "x, y", synonyms := .other, antonyms := .arr [] }

/-- A patch that only provides `synonyms: "x,y"`. -/
def synPatch : WordPatch := { emptyPatch with synonyms := some (.str "x,y") }

/-- A patch that only provides a new `id`. -/
def idPatch : WordPatch := { emptyPatch with id := some "b" }

/-- A world whose cache mirrors the remote document (one word). -/
def syncedWorld : World :=
  { apiKey := "key1", binId := "bin1"
    cache := [sampleWord "a" "2026-10-05" 1]
    remote := some [sampleWord "a" "2026-10-05" 1] }

/-
Lemmas about the re-numbering loop of `deleteWord`.
-/

theorem renumberFrom_length (d : String) (n : Nat) (l : List Word) :
    (renumberFrom d n l).length = l.length := by
  induction l generalizing n with
  | nil => rfl
  | cons w ws ih => by_cases h : w.date = d <;> simp [renumberFrom, h, ih]

theorem renumberFrom_map_id (d : String) (n : Nat) (l : List Word) :
    (renumberFrom d n l).map Word.id = l.map Word.id := by
  induction l generalizing n with
  | nil => rfl
  | cons w ws ih => by_cases h : w.date = d <;> simp [renumberFrom, h, ih]

theorem renumberFrom_map_clearNum (d : String) (n : Nat) (l : List Word) :
    (renumberFrom d n l).map clearNum = l.map clearNum := by
  induction l generalizing n with
  | nil => rfl
  | cons w ws ih =>
    by_cases h : w.date = d <;> simp [renumberFrom, h, ih, clearNum]

theorem renumberFrom_filter_ne (d : String) (n : Nat) (l : List Word) :
    (renumberFrom d n l).filter (fun w => !(w.date == d)) =
      l.filter (fun w => !(w.date == d)) := by
  induction l generalizing n with
  | nil => rfl
  | cons w ws ih =>
    by_cases h : w.date = d <;>
      simp [renumberFrom, h, ih, List.filter_cons]

theorem renumberFrom_filter_map_clearNum (d : String) (n : Nat) (l : List Word) :
    ((renumberFrom d n l).filter (fun w => w.date == d)).map clearNum =
      (l.filter (fun w => w.date == d)).map clearNum := by
  induction l generalizing n with
  | nil => rfl
  | cons w ws ih =>
    by_cases h : w.date = d <;>
      simp [renumberFrom, h, ih, List.filter_cons, clearNum]

theorem renumberFrom_filter_map_num (d : String) (n : Nat) (l : List Word) :
    ((renumberFrom d n l).filter (fun w => w.date == d)).map Word.wordNumber =
      List.range' n (l.filter (fun w => w.date == d)).length := by
  induction l generalizing n with
  | nil => rfl
  | cons w ws ih =>
    by_cases h : w.date = d <;>
      simp [renumberFrom, h, ih, List.filter_cons, List.range'_succ]

/-
Routing lemmas for `fetchAllWords` / `saveAllWords`.
-/

theorem some_beq_some (a b : String) : (some a == some b) = (a == b) := rfl

theorem fetchAllWords_noBin {w : World} (o : Nat → Attempt)
    (h : w.binId = "") :
    fetchAllWords w o = { words := w.cache, world := w, attempts := 0 } := by
  simp [fetchAllWords, h]

theorem fetchAllWords_ok {w : World} {o : Nat → Attempt}
    (h : ¬w.binId = "") (hok : (request o 0 2).ok = true) :
    fetchAllWords w o =
      { words := w.remote.getD []
        world := { w with cache := w.remote.getD [] }
        attempts := (request o 0 2).attempts } := by
  simp [fetchAllWords, h, hok]

theorem fetchAllWords_fail {w : World} {o : Nat → Attempt}
    (h : ¬w.binId = "") (hok : (request o 0 2).ok = false) :
    fetchAllWords w o =
      { words := w.cache, world := w, attempts := (request o 0 2).attempts } := by
  simp [fetchAllWords, h, hok]

theorem fetchAllWords_world_binId (w : World) (o : Nat → Attempt) :
    (fetchAllWords w o).world.binId = w.binId := by
  by_cases h : w.binId = ""
  · simp [fetchAllWords_noBin o h]
  · rcases hok : (request o 0 2).ok with _ | _
    · simp [fetchAllWords_fail h hok]
    · simp [fetchAllWords_ok h hok]

theorem fetchAllWords_world_remote (w : World) (o : Nat → Attempt) :
    (fetchAllWords w o).world.remote = w.remote := by
  by_cases h : w.binId = ""
  · simp [fetchAllWords_noBin o h]
  · rcases hok : (request o 0 2).ok with _ | _
    · simp [fetchAllWords_fail h hok]
    · simp [fetchAllWords_ok h hok]

theorem saveAllWords_noBin {w : World} (o : Nat → Attempt) (ws : List Word)
    (h : w.binId = "") :
    saveAllWords w o ws =
      { ok := true, world := { w with cache := ws }, attempts := 0 } := by
  simp [saveAllWords, h]

theorem saveAllWords_cache (w : World) (o : Nat → Attempt) (ws : List Word) :
    (saveAllWords w o ws).world.cache = ws := by
  by_cases h : w.binId = ""
  · simp [saveAllWords, h]
  · simp only [saveAllWords, if_neg h]
    rcases hok : (request o 0 2).ok with _ | _ <;> simp [hok]

theorem saveAllWords_world_binId (w : World) (o : Nat → Attempt) (ws : List Word) :
    (saveAllWords w o ws).world.binId = w.binId := by
  by_cases h : w.binId = ""
  · simp [saveAllWords, h]
  · simp only [saveAllWords, if_neg h]
    rcases hok : (request o 0 2).ok with _ | _ <;> simp [hok]

theorem saveAllWords_remote_ok {w : World} {o : Nat → Attempt} (ws : List Word)
    (h : ¬w.binId = "") (hok : (request o 0 2).ok = true) :
    (saveAllWords w o ws).world.remote = some ws := by
  simp [saveAllWords, h, hok]

/-
Lemmas about collections with pairwise-distinct ids.
-/

theorem nodup_id_inj {l : List Word} (hn : (l.map Word.id).Nodup)
    {x y : Word} (hx : x ∈ l) (hy : y ∈ l) (h : x.id = y.id) : x = y :=
  List.inj_on_of_nodup_map hn hx hy h

theorem filter_id_eq_singleton {l : List Word} {w : Word}
    (hn : (l.map Word.id).Nodup) (hw : w ∈ l) :
    l.filter (fun x => x.id == w.id) = [w] := by
  induction l with
  | nil => cases hw
  | cons a t ih =>
    simp only [List.map_cons, List.nodup_cons] at hn
    obtain ⟨hnotin, hnd⟩ := hn
    rcases List.mem_cons.mp hw with rfl | hwt
    · simp only [List.filter_cons, beq_self_eq_true, if_pos, List.cons.injEq,
        true_and]
      simp only [List.filter_eq_nil_iff]
      intro x hx hbeq
      exact hnotin (by simpa [beq_iff_eq.mp hbeq] using List.mem_map_of_mem Word.id hx)
    · by_cases ha : a.id = w.id
      · exact absurd (ha ▸ List.mem_map_of_mem Word.id hwt) hnotin
      · simpa [List.filter_cons, ha] using ih hnd hwt

theorem length_filter_ne_id {l : List Word} {w : Word}
    (hn : (l.map Word.id).Nodup) (hw : w ∈ l) :
    (l.filter (fun x => x.id != w.id)).length + 1 = l.length := by
  have hperm := List.filter_append_perm (fun x => x.id != w.id) l
  have hnot : (l.filter fun x => !(x.id != w.id)) =
      l.filter (fun x => x.id == w.id) := by
    simp [bne]
  have hsing := filter_id_eq_singleton hn hw
  have := hperm.length_eq
  simp only [List.length_append, hnot, hsing, List.length_singleton] at this
  exact this

theorem find_id_eq {l : List Word} {w : Word}
    (hn : (l.map Word.id).Nodup) (hw : w ∈ l) :
    l.find? (fun x => x.id == w.id) = some w := by
  induction l with
  | nil => cases hw
  | cons a t ih =>
    simp only [List.map_cons, List.nodup_cons] at hn
    obtain ⟨hnotin, hnd⟩ := hn
    rcases List.mem_cons.mp hw with rfl | hwt
    · simp [List.find?]
    · by_cases ha : a.id = w.id
      · exact absurd (ha ▸ List.mem_map_of_mem Word.id hwt) hnotin
      · simpa [List.find?_cons, ha] using ih hnd hwt

/-- C1: deleting a present word removes exactly that word; the
remaining words of the deleted word's date are re-numbered 1..k in
their existing relative order (k = their count), words of every other
date are completely untouched, and the per-date contiguous numbering
invariant holds for the affected date afterwards. -/
theorem deleteWord_renumbers_affected_date (allWords : List Word) (w : Word)
    (hn : (allWords.map Word.id).Nodup) (hw : w ∈ allWords) :
    ∃ result, deleteWordPure w.id allWords = some result ∧
      result.length + 1 = allWords.length ∧
      (∀ x ∈ result, x.id ≠ w.id) ∧
      result.filter (fun x => !(x.date == w.date)) =
        allWords.filter (fun x => !(x.date == w.date)) ∧
      (result.filter (fun x => x.date == w.date)).map clearNum =
        ((allWords.filter (fun x => x.id != w.id)).filter
          (fun x => x.date == w.date)).map clearNum ∧
      (result.filter (fun x => x.date == w.date)).map Word.wordNumber =
        List.range' 1 (result.filter (fun x => x.date == w.date)).length ∧
      dateNumbering w.date result = true := by
  classical
  set filtered := allWords.filter (fun x => x.id != w.id) with hfilt
  have hlen : filtered.length + 1 = allWords.length := length_filter_ne_id hn hw
  have hne : ¬(filtered.length = allWords.length) := by omega
  have hfind : allWords.find? (fun x => x.id == w.id) = some w := find_id_eq hn hw
  refine ⟨renumberFrom w.date 1 filtered, ?_, ?_, ?_, ?_, ?_, ?_, ?_⟩
  · simp only [deleteWordPure, ← hfilt, if_neg hne, hfind]
  · rw [renumberFrom_length]; exact hlen
  · intro x hx
    have hxid : x.id ∈ (renumberFrom w.date 1 filtered).map Word.id :=
      List.mem_map_of_mem Word.id hx
    rw [renumberFrom_map_id] at hxid
    obtain ⟨y, hy, hyx⟩ := List.mem_map.mp hxid
    have := List.of_mem_filter hy
    simp only [bne_iff_ne, ne_eq] at this
    exact hyx ▸ this
  · rw [renumberFrom_filter_ne]
    rw [hfilt, List.filter_filter]
    apply List.filter_congr
    intro x hx
    by_cases hd : x.date = w.date
    · simp [hd]
    · have hid : x.id ≠ w.id := fun h => hd (congrArg Word.date (nodup_id_inj hn hx hw h))
      simp [hd, hid]
  · exact renumberFrom_filter_map_clearNum w.date 1 filtered
  · have h1 := renumberFrom_filter_map_num w.date 1 filtered
    have h2 : ((renumberFrom w.date 1 filtered).filter
          (fun x => x.date == w.date)).length =
        (filtered.filter (fun x => x.date == w.date)).length := by
      have h3 := congrArg List.length
        (renumberFrom_filter_map_clearNum w.date 1 filtered)
      simpa using h3
    rw [h1, h2]
  · have h1 := renumberFrom_filter_map_num w.date 1 filtered
    have h2 : ((renumberFrom w.date 1 filtered).filter
          (fun x => x.date == w.date)).length =
        (filtered.filter (fun x => x.date == w.date)).length := by
      have h3 := congrArg List.length
        (renumberFrom_filter_map_clearNum w.date 1 filtered)
      simpa using h3
    simp only [dateNumbering, beq_iff_eq]
    rw [h1, h2]

/-- Witness for C1 at a concrete four-word collection (three words on
the affected date, the middle one deleted). -/
theorem deleteWord_renumbers_affected_date_witness :
    (([sampleWord "a" "2026-10-05" 1, sampleWord "b" "2026-10-05" 2,
       sampleWord "c" "2026-10-05" 3, sampleWord "x" "2026-10-06" 1].map
        Word.id).Nodup ∧
      sampleWord "b" "2026-10-05" 2 ∈
        [sampleWord "a" "2026-10-05" 1, sampleWord "b" "2026-10-05" 2,
         sampleWord "c" "2026-10-05" 3, sampleWord "x" "2026-10-06" 1]) ∧
    (∃ result,
      deleteWordPure (sampleWord "b" "2026-10-05" 2).id
        [sampleWord "a" "2026-10-05" 1, sampleWord "b" "2026-10-05" 2,
         sampleWord "c" "2026-10-05" 3, sampleWord "x" "2026-10-06" 1] =
        some result ∧
      result.length + 1 = 4 ∧
      (∀ x ∈ result, x.id ≠ (sampleWord "b" "2026-10-05" 2).id) ∧
      result.filter (fun x => !(x.date == (sampleWord "b" "2026-10-05" 2).date)) =
        [sampleWord "a" "2026-10-05" 1, sampleWord "b" "2026-10-05" 2,
         sampleWord "c" "2026-10-05" 3, sampleWord "x" "2026-10-06" 1].filter
          (fun x => !(x.date == (sampleWord "b" "2026-10-05" 2).date)) ∧
      (result.filter (fun x => x.date == (sampleWord "b" "2026-10-05" 2).date)).map
          clearNum =
        (([sampleWord "a" "2026-10-05" 1, sampleWord "b" "2026-10-05" 2,
           sampleWord "c" "2026-10-05" 3, sampleWord "x" "2026-10-06" 1].filter
            (fun x => x.id != (sampleWord "b" "2026-10-05" 2).id)).filter
          (fun x => x.date == (sampleWord "b" "2026-10-05" 2).date)).map clearNum ∧
      (result.filter (fun x => x.date == (sampleWord "b" "2026-10-05" 2).date)).map
          Word.wordNumber =
        List.range' 1
          (result.filter
            (fun x => x.date == (sampleWord "b" "2026-10-05" 2).date)).length ∧
      dateNumbering (sampleWord "b" "2026-10-05" 2).date result = true) :=
  ⟨⟨by decide, by decide⟩,
    deleteWord_renumbers_affected_date _ _ (by decide) (by decide)⟩

/-- C2: with exactly `n` fetched words dated `d`, `addWord` on an input
dated `d` returns a word carrying the fresh id and `wordNumber = n + 1`
and appends it to the collection, whatever the outcome of the remote
save (the cache write is unconditional); the total count afterwards is
one larger. -/
theorem addWord_next_number_and_count (w : World)
    (fO sO fO2 : Nat → Attempt) (wordData : WordInput)
    (d newId today createdAt : String)
    (hdate : wordData.date = some d) (hne : d ≠ "") :
    (addWord w fO sO wordData newId today createdAt).1.wordNumber =
      ((fetchAllWords w fO).words.filter (fun x => x.date == d)).length + 1 ∧
    (addWord w fO sO wordData newId today createdAt).1.id = newId ∧
    (addWord w fO sO wordData newId today createdAt).1.date = d ∧
    (addWord w fO sO wordData newId today createdAt).2.cache =
      (fetchAllWords w fO).words ++
        [(addWord w fO sO wordData newId today createdAt).1] ∧
    (addWord w fO sO wordData newId today createdAt).2.cache.length =
      (fetchAllWords w fO).words.length + 1 ∧
    (w.binId = "" →
      getTotalWordCount (addWord w fO sO wordData newId today createdAt).2 fO2 =
        getTotalWordCount w fO + 1) ∧
    (¬w.binId = "" → (request sO 0 2).ok = true → (request fO2 0 2).ok = true →
      getTotalWordCount (addWord w fO sO wordData newId today createdAt).2 fO2 =
        (fetchAllWords w fO).words.length + 1) := by
  have hnum : (addWord w fO sO wordData newId today createdAt).1.wordNumber =
      ((fetchAllWords w fO).words.filter (fun x => x.date == d)).length + 1 := by
    simp only [addWord, addWordPure, getNextWordNumber, hdate]
    rfl
  have hid : (addWord w fO sO wordData newId today createdAt).1.id = newId := rfl
  have hdt : (addWord w fO sO wordData newId today createdAt).1.date = d := by
    simp [addWord, addWordPure, jsOrElse, hdate, hne]
  have hcache : (addWord w fO sO wordData newId today createdAt).2.cache =
      (fetchAllWords w fO).words ++
        [(addWord w fO sO wordData newId today createdAt).1] := by
    simp only [addWord, addWordPure]
    exact saveAllWords_cache _ _ _
  have hclen : (addWord w fO sO wordData newId today createdAt).2.cache.length =
      (fetchAllWords w fO).words.length + 1 := by
    rw [hcache]; simp
  have hbin2 : (addWord w fO sO wordData newId today createdAt).2.binId =
      w.binId := by
    simp only [addWord]
    rw [saveAllWords_world_binId, fetchAllWords_world_binId]
  refine ⟨hnum, hid, hdt, hcache, hclen, ?_, ?_⟩
  · intro hb
    have hb2 : (addWord w fO sO wordData newId today createdAt).2.binId = "" :=
      hbin2.trans hb
    rw [getTotalWordCount, fetchAllWords_noBin fO2 hb2]
    rw [getTotalWordCount, fetchAllWords_noBin fO hb]
    have hfw : (fetchAllWords w fO).words = w.cache := by
      rw [fetchAllWords_noBin fO hb]
    simpa [hfw] using hclen
  · intro hb hsave hf2
    have hb2 : ¬(addWord w fO sO wordData newId today createdAt).2.binId = "" :=
      fun h => hb (hbin2.symm.trans h)
    have hrem : (addWord w fO sO wordData newId today createdAt).2.remote =
        some ((fetchAllWords w fO).words ++
          [(addWord w fO sO wordData newId today createdAt).1]) := by
      simp only [addWord, addWordPure]
      apply saveAllWords_remote_ok
      · rw [fetchAllWords_world_binId]; exact hb
      · exact hsave
    rw [getTotalWordCount, fetchAllWords_ok hb2 hf2]
    simp [hrem]

/-- Witness for C2: offline world with one cached word dated
2026-10-11; adding a second word of that date yields number 2 and a
total count of 2. -/
theorem addWord_next_number_and_count_witness :
    (sampleInput.date = some "2026-10-11" ∧ ("2026-10-11" : String) ≠ "") ∧
    ((addWord offlineWorld alwaysOk alwaysOk sampleInput "b" "2026-10-11"
        "2026-10-11T10:00:00.000Z").1.wordNumber =
      ((fetchAllWords offlineWorld alwaysOk).words.filter
        (fun x => x.date == "2026-10-11")).length + 1 ∧
    (addWord offlineWorld alwaysOk alwaysOk sampleInput "b" "2026-10-11"
        "2026-10-11T10:00:00.000Z").1.id = "b" ∧
    (addWord offlineWorld alwaysOk alwaysOk sampleInput "b" "2026-10-11"
        "2026-10-11T10:00:00.000Z").1.date = "2026-10-11" ∧
    (addWord offlineWorld alwaysOk alwaysOk sampleInput "b" "2026-10-11"
        "2026-10-11T10:00:00.000Z").2.cache =
      (fetchAllWords offlineWorld alwaysOk).words ++
        [(addWord offlineWorld alwaysOk alwaysOk sampleInput "b" "2026-10-11"
          "2026-10-11T10:00:00.000Z").1] ∧
    (addWord offlineWorld alwaysOk alwaysOk sampleInput "b" "2026-10-11"
        "2026-10-11T10:00:00.000Z").2.cache.length =
      (fetchAllWords offlineWorld alwaysOk).words.length + 1 ∧
    (offlineWorld.binId = "" →
      getTotalWordCount (addWord offlineWorld alwaysOk alwaysOk sampleInput "b"
          "2026-10-11" "2026-10-11T10:00:00.000Z").2 alwaysOk =
        getTotalWordCount offlineWorld alwaysOk + 1) ∧
    (¬offlineWorld.binId = "" → (request alwaysOk 0 2).ok = true →
      (request alwaysOk 0 2).ok = true →
      getTotalWordCount (addWord offlineWorld alwaysOk alwaysOk sampleInput "b"
          "2026-10-11" "2026-10-11T10:00:00.000Z").2 alwaysOk =
        (fetchAllWords offlineWorld alwaysOk).words.length + 1)) :=
  ⟨⟨by decide, by decide⟩,
    addWord_next_number_and_count offlineWorld alwaysOk alwaysOk alwaysOk
      sampleInput "2026-10-11" "b" "2026-10-11" "2026-10-11T10:00:00.000Z"
      (by decide) (by decide)⟩

/-
Lemmas about `updateWordPure`.
-/

theorem updateWordPure_not_found {wordId : String} {p : WordPatch}
    {now : String} {l : List Word} (h : ∀ x ∈ l, x.id ≠ wordId) :
    updateWordPure wordId p now l = none := by
  induction l with
  | nil => rfl
  | cons x xs ih =>
    have hx : ¬x.id = wordId := h x (List.mem_cons_self x xs)
    have ht := ih (fun y hy => h y (List.mem_cons_of_mem x hy))
    simp [updateWordPure, hx, ht]

theorem updateWordPure_found {wordId : String} {p : WordPatch} {now : String}
    {l : List Word} {x : Word}
    (h : l.find? (fun y => y.id == wordId) = some x) :
    ∃ rest, updateWordPure wordId p now l = some (applyPatch x p now, rest) := by
  induction l with
  | nil => simp at h
  | cons a t ih =>
    by_cases ha : a.id = wordId
    · have hb : (a.id == wordId) = true := by simp [ha]
      have hax : a = x := by
        have h2 := h
        simp only [List.find?_cons, hb] at h2
        simpa using h2
      subst hax
      exact ⟨applyPatch a p now :: t, by simp [updateWordPure, ha]⟩
    · have hb : (a.id == wordId) = false := by simp [ha]
      have h2 : t.find? (fun y => y.id == wordId) = some x := by
        have h3 := h
        simp only [List.find?_cons, hb] at h3
        exact h3
      obtain ⟨rest, hr⟩ := ih h2
      exact ⟨a :: rest, by simp [updateWordPure, ha, hr]⟩

/-- C3: on a collection containing the id, `updateWord` returns the
target word merged with the patch — fields absent from the patch are
untouched (in particular omitted synonyms survive), present list
fields are renormalized through `parseArrayField` (so `"x,y"` becomes
`["x","y"]`), `updatedAt` is refreshed to now — and on a collection
without the id it fails with the not-found condition. -/
theorem updateWord_merge_semantics (allWords : List Word) (wordId : String)
    (p : WordPatch) (now : String) (x : Word)
    (hfind : allWords.find? (fun y => y.id == wordId) = some x) :
    (∃ rest, updateWordPure wordId p now allWords =
      some (applyPatch x p now, rest)) ∧
    (applyPatch x p now).updatedAt = some now ∧
    (p.synonyms = none → (applyPatch x p now).synonyms = x.synonyms) ∧
    (p.banglaMeanings = none →
      (applyPatch x p now).banglaMeanings = x.banglaMeanings) ∧
    (p.antonyms = none → (applyPatch x p now).antonyms = x.antonyms) ∧
    (p.english = none → (applyPatch x p now).english = x.english) ∧
    (p.ipa = none → (applyPatch x p now).ipa = x.ipa) ∧
    (p.context = none → (applyPatch x p now).context = x.context) ∧
    (p.meaning = none → (applyPatch x p now).meaning = x.meaning) ∧
    (p.isLearned = none → (applyPatch x p now).isLearned = x.isLearned) ∧
    (p.id = none → (applyPatch x p now).id = x.id) ∧
    (p.date = none → (applyPatch x p now).date = x.date) ∧
    (p.wordNumber = none → (applyPatch x p now).wordNumber = x.wordNumber) ∧
    (p.createdAt = none → (applyPatch x p now).createdAt = x.createdAt) ∧
    (∀ fi, p.synonyms = some fi →
      (applyPatch x p now).synonyms = parseArrayField fi) ∧
    (∀ fi, p.banglaMeanings = some fi →
      (applyPatch x p now).banglaMeanings = parseArrayField fi) ∧
    (∀ fi, p.antonyms = some fi →
      (applyPatch x p now).antonyms = parseArrayField fi) ∧
    (p.synonyms = some (.str "x,y") →
      (applyPatch x p now).synonyms = ["x", "y"]) ∧
    (∀ l2 : List Word, (∀ y ∈ l2, y.id ≠ wordId) →
      updateWordPure wordId p now l2 = none) := by
  refine ⟨updateWordPure_found hfind, rfl,
    fun h => by simp [applyPatch, h], fun h => by simp [applyPatch, h],
    fun h => by simp [applyPatch, h], fun h => by simp [applyPatch, h],
    fun h => by simp [applyPatch, h], fun h => by simp [applyPatch, h],
    fun h => by simp [applyPatch, h], fun h => by simp [applyPatch, h],
    fun h => by simp [applyPatch, h], fun h => by simp [applyPatch, h],
    fun h => by simp [applyPatch, h], fun h => by simp [applyPatch, h],
    fun fi h => by simp [applyPatch, h], fun fi h => by simp [applyPatch, h],
    fun fi h => by simp [applyPatch, h], fun h => ?_,
    fun l2 h => updateWordPure_not_found h⟩
  simp only [applyPatch, h]
  decide

/-- Witness for C3 at a one-word collection and the patch
`{synonyms: "x,y"}`. -/
theorem updateWord_merge_semantics_witness :
    ([sampleWord "a" "2026-10-05" 1].find? (fun y => y.id == "a") =
      some (sampleWord "a" "2026-10-05" 1)) ∧
    ((∃ rest, updateWordPure "a" synPatch "2026-10-12T00:00:00.000Z"
        [sampleWord "a" "2026-10-05" 1] =
      some (applyPatch (sampleWord "a" "2026-10-05" 1) synPatch
        "2026-10-12T00:00:00.000Z", rest)) ∧
    (applyPatch (sampleWord "a" "2026-10-05" 1) synPatch
      "2026-10-12T00:00:00.000Z").updatedAt = some "2026-10-12T00:00:00.000Z" ∧
    (synPatch.synonyms = none →
      (applyPatch (sampleWord "a" "2026-10-05" 1) synPatch
        "2026-10-12T00:00:00.000Z").synonyms =
        (sampleWord "a" "2026-10-05" 1).synonyms) ∧
    (synPatch.banglaMeanings = none →
      (applyPatch (sampleWord "a" "2026-10-05" 1) synPatch
        "2026-10-12T00:00:00.000Z").banglaMeanings =
        (sampleWord "a" "2026-10-05" 1).banglaMeanings) ∧
    (synPatch.antonyms = none →
      (applyPatch (sampleWord "a" "2026-10-05" 1) synPatch
        "2026-10-12T00:00:00.000Z").antonyms =
        (sampleWord "a" "2026-10-05" 1).antonyms) ∧
    (synPatch.english = none →
      (applyPatch (sampleWord "a" "2026-10-05" 1) synPatch
        "2026-10-12T00:00:00.000Z").english =
        (sampleWord "a" "2026-10-05" 1).english) ∧
    (synPatch.ipa = none →
      (applyPatch (sampleWord "a" "2026-10-05" 1) synPatch
        "2026-10-12T00:00:00.000Z").ipa = (sampleWord "a" "2026-10-05" 1).ipa) ∧
    (synPatch.context = none →
      (applyPatch (sampleWord "a" "2026-10-05" 1) synPatch
        "2026-10-12T00:00:00.000Z").context =
        (sampleWord "a" "2026-10-05" 1).context) ∧
    (synPatch.meaning = none →
      (applyPatch (sampleWord "a" "2026-10-05" 1) synPatch
        "2026-10-12T00:00:00.000Z").meaning =
        (sampleWord "a" "2026-10-05" 1).meaning) ∧
    (synPatch.isLearned = none →
      (applyPatch (sampleWord "a" "2026-10-05" 1) synPatch
        "2026-10-12T00:00:00.000Z").isLearned =
        (sampleWord "a" "2026-10-05" 1).isLearned) ∧
    (synPatch.id = none →
      (applyPatch (sampleWord "a" "2026-10-05" 1) synPatch
        "2026-10-12T00:00:00.000Z").id = (sampleWord "a" "2026-10-05" 1).id) ∧
    (synPatch.date = none →
      (applyPatch (sampleWord "a" "2026-10-05" 1) synPatch
        "2026-10-12T00:00:00.000Z").date =
        (sampleWord "a" "2026-10-05" 1).date) ∧
    (synPatch.wordNumber = none →
      (applyPatch (sampleWord "a" "2026-10-05" 1) synPatch
        "2026-10-12T00:00:00.000Z").wordNumber =
        (sampleWord "a" "2026-10-05" 1).wordNumber) ∧
    (synPatch.createdAt = none →
      (applyPatch (sampleWord "a" "2026-10-05" 1) synPatch
        "2026-10-12T00:00:00.000Z").createdAt =
        (sampleWord "a" "2026-10-05" 1).createdAt) ∧
    (∀ fi, synPatch.synonyms = some fi →
      (applyPatch (sampleWord "a" "2026-10-05" 1) synPatch
        "2026-10-12T00:00:00.000Z").synonyms = parseArrayField fi) ∧
    (∀ fi, synPatch.banglaMeanings = some fi →
      (applyPatch (sampleWord "a" "2026-10-05" 1) synPatch
        "2026-10-12T00:00:00.000Z").banglaMeanings = parseArrayField fi) ∧
    (∀ fi, synPatch.antonyms = some fi →
      (applyPatch (sampleWord "a" "2026-10-05" 1) synPatch
        "2026-10-12T00:00:00.000Z").antonyms = parseArrayField fi) ∧
    (synPatch.synonyms = some (.str "x,y") →
      (applyPatch (sampleWord "a" "2026-10-05" 1) synPatch
        "2026-10-12T00:00:00.000Z").synonyms = ["x", "y"]) ∧
    (∀ l2 : List Word, (∀ y ∈ l2, y.id ≠ "a") →
      updateWordPure "a" synPatch "2026-10-12T00:00:00.000Z" l2 = none)) :=
  ⟨by decide,
    updateWord_merge_semantics [sampleWord "a" "2026-10-05" 1] "a" synPatch
      "2026-10-12T00:00:00.000Z" (sampleWord "a" "2026-10-05" 1) (by decide)⟩

/-- C4 counterexample: a patch that does contain an `id` field changes
the target word's id — the object spread in `updateWord` imposes no
immutability on `id`, `date` or `createdAt`. -/
theorem updateWord_can_change_id_cex :
    (updateWordPure "a" idPatch "2026-10-12T00:00:00.000Z"
        [sampleWord "a" "2026-10-05" 1]).map (fun r => r.1.id) = some "b" ∧
    (sampleWord "a" "2026-10-05" 1).id = "a" ∧ ("b" : String) ≠ "a" := by
  decide

/-- C4 amended: `updateWord` leaves the target word's `id`, `date` and
`createdAt` unchanged for every patch in which those three fields are
absent (which is how every UI call site builds patches); a patch that
does carry one of them replaces it like any other field. -/
theorem updateWord_preserves_identity_fields (allWords : List Word)
    (wordId : String) (p : WordPatch) (now : String) (x : Word)
    (hfind : allWords.find? (fun y => y.id == wordId) = some x)
    (hid : p.id = none) (hdt : p.date = none) (hca : p.createdAt = none) :
    ∃ rest, updateWordPure wordId p now allWords =
      some (applyPatch x p now, rest) ∧
      (applyPatch x p now).id = x.id ∧
      (applyPatch x p now).date = x.date ∧
      (applyPatch x p now).createdAt = x.createdAt := by
  obtain ⟨rest, hr⟩ := @updateWordPure_found wordId p now allWords x hfind
  exact ⟨rest, hr, by simp [applyPatch, hid], by simp [applyPatch, hdt],
    by simp [applyPatch, hca]⟩

/-- Witness for the amended C4 at a one-word collection and the
synonyms-only patch. -/
theorem updateWord_preserves_identity_fields_witness :
    (([sampleWord "a" "2026-10-05" 1].find? (fun y => y.id == "a") =
        some (sampleWord "a" "2026-10-05" 1)) ∧
      synPatch.id = none ∧ synPatch.date = none ∧ synPatch.createdAt = none) ∧
    (∃ rest, updateWordPure "a" synPatch "2026-10-12T00:00:00.000Z"
        [sampleWord "a" "2026-10-05" 1] =
      some (applyPatch (sampleWord "a" "2026-10-05" 1) synPatch
        "2026-10-12T00:00:00.000Z", rest) ∧
      (applyPatch (sampleWord "a" "2026-10-05" 1) synPatch
        "2026-10-12T00:00:00.000Z").id = (sampleWord "a" "2026-10-05" 1).id ∧
      (applyPatch (sampleWord "a" "2026-10-05" 1) synPatch
        "2026-10-12T00:00:00.000Z").date =
        (sampleWord "a" "2026-10-05" 1).date ∧
      (applyPatch (sampleWord "a" "2026-10-05" 1) synPatch
        "2026-10-12T00:00:00.000Z").createdAt =
        (sampleWord "a" "2026-10-05" 1).createdAt) :=
  ⟨⟨by decide, by decide, by decide, by decide⟩,
    updateWord_preserves_identity_fields [sampleWord "a" "2026-10-05" 1] "a"
      synPatch "2026-10-12T00:00:00.000Z" (sampleWord "a" "2026-10-05" 1)
      (by decide) (by decide) (by decide) (by decide)⟩

/-- C5: deleting an unknown id fails with the not-found condition and
saves nothing — when the cache mirrors the remote collection, the
whole store (remote document and cache snapshot, hence the collection
length) is left exactly as it was. -/
theorem deleteWord_unknown_id_noop (w : World) (fO sO : Nat → Attempt)
    (wordId : String) (hsync : w.cache = w.remote.getD [])
    (habs : ∀ x ∈ w.cache, x.id ≠ wordId) :
    (deleteWord w fO sO wordId).1 = .error "Word not found" ∧
    (deleteWord w fO sO wordId).2 = w ∧
    (deleteWord w fO sO wordId).2.remote = w.remote ∧
    (deleteWord w fO sO wordId).2.cache.length = w.cache.length := by
  have hfetch : (fetchAllWords w fO).words = w.cache ∧
      (fetchAllWords w fO).world = w := by
    by_cases h : w.binId = ""
    · simp [fetchAllWords_noBin fO h]
    · rcases hok : (request fO 0 2).ok with _ | _
      · simp [fetchAllWords_fail h hok]
      · refine ⟨by simp [fetchAllWords_ok h hok, hsync], ?_⟩
        rw [fetchAllWords_ok h hok]
        rw [← hsync]

  have hkeep : w.cache.filter (fun x => x.id != wordId) = w.cache := by
    rw [List.filter_eq_self]
    intro a ha
    simpa using habs a ha
  have hnone : deleteWordPure wordId (fetchAllWords w fO).words = none := by
    rw [hfetch.1]
    simp [deleteWordPure, hkeep]
  have hdel : deleteWord w fO sO wordId =
      (.error "Word not found", (fetchAllWords w fO).world) := by
    simp [deleteWord, hnone]
  rw [hdel, hfetch.2]
  exact ⟨rfl, rfl, rfl, rfl⟩

/-- Witness for C5 at a synced one-word world and an id not in it. -/
theorem deleteWord_unknown_id_noop_witness :
    (syncedWorld.cache = syncedWorld.remote.getD [] ∧
      (∀ x ∈ syncedWorld.cache, x.id ≠ "zz")) ∧
    ((deleteWord syncedWorld alwaysOk alwaysOk "zz").1 =
      .error "Word not found" ∧
    (deleteWord syncedWorld alwaysOk alwaysOk "zz").2 = syncedWorld ∧
    (deleteWord syncedWorld alwaysOk alwaysOk "zz").2.remote =
      syncedWorld.remote ∧
    (deleteWord syncedWorld alwaysOk alwaysOk "zz").2.cache.length =
      syncedWorld.cache.length) :=
  ⟨⟨by decide, by decide⟩,
    deleteWord_unknown_id_noop syncedWorld alwaysOk alwaysOk "zz"
      (by decide) (by decide)⟩

/-- C6 counterexample: with the access key absent but a document id
present, the code still goes to the network — `fetchAll` issues three
attempts instead of none, and `saveAll` reports failure instead of the
claimed success — because `ApiManager` checks only `binId`, never
`apiKey`, when deciding to fall back to the local cache. -/
theorem credentials_missing_key_still_remote_cex :
    noKeyWorld.apiKey = "" ∧
    (fetchAllWords noKeyWorld alwaysFail).attempts = 3 ∧
    (saveAllWords noKeyWorld alwaysFail []).ok = false := by
  decide

/-- C6 amended: only an absent document identifier routes operations
to the local cache snapshot: then `fetchAll` returns exactly the
snapshot with no remote attempt, and `saveAll` writes its argument to
the snapshot, touches nothing else, and reports success. An absent
access key alone does not trigger the local route. -/
theorem missing_binId_routes_to_cache (w : World) (fO sO : Nat → Attempt)
    (c : List Word) (h : w.binId = "") :
    fetchAllWords w fO = { words := w.cache, world := w, attempts := 0 } ∧
    saveAllWords w sO c =
      { ok := true, world := { w with cache := c }, attempts := 0 } :=
  ⟨fetchAllWords_noBin fO h, saveAllWords_noBin sO c h⟩

/-- Witness for the amended C6 at the credential-less world. -/
theorem missing_binId_routes_to_cache_witness :
    offlineWorld.binId = "" ∧
    (fetchAllWords offlineWorld alwaysFail =
      { words := offlineWorld.cache, world := offlineWorld, attempts := 0 } ∧
    saveAllWords offlineWorld alwaysFail [sampleWord "b" "2026-10-12" 1] =
      { ok := true
        world := { offlineWorld with cache := [sampleWord "b" "2026-10-12" 1] }
        attempts := 0 }) :=
  ⟨by decide,
    missing_binId_routes_to_cache offlineWorld alwaysFail alwaysFail
      [sampleWord "b" "2026-10-12" 1] (by decide)⟩

/-
Lemmas about the retry loop.
-/

theorem request_attempts_le (oracle : Nat → Attempt) (i r : Nat) :
    (request oracle i r).attempts ≤ r + 1 := by
  induction r generalizing i with
  | zero => rcases h : oracle i with _ | ab <;> simp [request, h]
  | succ r ih =>
    rcases h : oracle i with _ | ab
    · simp [request, h]
    · cases ab
      · simp only [request, h, Bool.false_eq_true, if_false]
        exact Nat.succ_le_succ (ih (i + 1))
      · simp [request, h]

theorem request_delays_1000 (oracle : Nat → Attempt) (i r : Nat) :
    ∀ d ∈ (request oracle i r).delays, d = 1000 := by
  induction r generalizing i with
  | zero => rcases h : oracle i with _ | ab <;> simp [request, h]
  | succ r ih =>
    rcases h : oracle i with _ | ab
    · simp [request, h]
    · cases ab
      · simp only [request, h, Bool.false_eq_true, if_false, List.mem_cons]
        rintro d (rfl | hd)
        · rfl
        · exact ih (i + 1) d hd
      · simp [request, h]

theorem request_delays_length (oracle : Nat → Attempt) (i r : Nat) :
    (request oracle i r).delays.length + 1 = (request oracle i r).attempts := by
  induction r generalizing i with
  | zero => rcases h : oracle i with _ | ab <;> simp [request, h]
  | succ r ih =>
    rcases h : oracle i with _ | ab
    · simp [request, h]
    · cases ab
      · simp only [request, h, Bool.false_eq_true, if_false, List.length_cons]
        exact congrArg Nat.succ (ih (i + 1))
      · simp [request, h]

theorem request_abort_no_retry (oracle : Nat → Attempt) (i r : Nat)
    (h : oracle i = .fail true) :
    request oracle i r = { ok := false, attempts := 1, delays := [] } := by
  cases r <;> simp [request, h]

/-- C7: every remote call makes at most 3 attempts (1 original + up to
2 retries) separated by fixed 1000 ms delays (one delay per retry), an
abort failure is never retried, and for `fetchAll` over such a call:
failing twice and succeeding on the third attempt yields the remote
result (not the cache fallback), while three failures yield the cache
snapshot. -/
theorem request_retry_policy_and_fetch_fallback :
    (∀ (oracle : Nat → Attempt) (i : Nat), (request oracle i 2).attempts ≤ 3) ∧
    (∀ (oracle : Nat → Attempt) (i r : Nat),
      ∀ d ∈ (request oracle i r).delays, d = 1000) ∧
    (∀ (oracle : Nat → Attempt) (i r : Nat),
      (request oracle i r).delays.length + 1 = (request oracle i r).attempts) ∧
    (∀ (oracle : Nat → Attempt) (i r : Nat), oracle i = .fail true →
      request oracle i r = { ok := false, attempts := 1, delays := [] }) ∧
    (∀ (w : World) (oracle : Nat → Attempt), ¬w.binId = "" →
      oracle 0 = .fail false → oracle 1 = .fail false → oracle 2 = .ok →
      (fetchAllWords w oracle).words = w.remote.getD [] ∧
      (fetchAllWords w oracle).attempts = 3) ∧
    (∀ (w : World) (oracle : Nat → Attempt), ¬w.binId = "" →
      (∀ i, oracle i = .fail false) →
      fetchAllWords w oracle =
        { words := w.cache, world := w, attempts := 3 }) := by
  refine ⟨fun oracle i => request_attempts_le oracle i 2,
    request_delays_1000, request_delays_length, request_abort_no_retry,
    ?_, ?_⟩
  · intro w oracle hb h0 h1 h2
    have hreq : request oracle 0 2 =
        { ok := true, attempts := 3, delays := [1000, 1000] } := by
      simp [request, h0, h1, h2]
    constructor
    · rw [fetchAllWords_ok hb (by rw [hreq])]
    · rw [fetchAllWords_ok hb (by rw [hreq]), hreq]
  · intro w oracle hb hall
    have hreq : request oracle 0 2 =
        { ok := false, attempts := 3, delays := [1000, 1000] } := by
      simp [request, hall 0, hall 1, hall 2]
    rw [fetchAllWords_fail hb (by rw [hreq]), hreq]

/-- Witness for C7: the third-attempt-succeeds oracle returns the
remote document after exactly 3 attempts with 1000 ms delays, and the
always-failing oracle falls back to the cache. -/
theorem request_retry_policy_and_fetch_fallback_witness :
    (¬noKeyWorld.binId = "" ∧ thirdTimeLucky 0 = .fail false ∧
      thirdTimeLucky 1 = .fail false ∧ thirdTimeLucky 2 = .ok) ∧
    ((request thirdTimeLucky 0 2).attempts ≤ 3 ∧
      (∀ d ∈ (request thirdTimeLucky 0 2).delays, d = 1000) ∧
      (request thirdTimeLucky 0 2).delays.length + 1 =
        (request thirdTimeLucky 0 2).attempts ∧
      (fetchAllWords noKeyWorld thirdTimeLucky).words =
        noKeyWorld.remote.getD [] ∧
      (fetchAllWords noKeyWorld thirdTimeLucky).attempts = 3 ∧
      fetchAllWords noKeyWorld alwaysFail =
        { words := noKeyWorld.cache, world := noKeyWorld, attempts := 3 }) :=
  ⟨⟨by decide, by decide, by decide, by decide⟩,
    request_retry_policy_and_fetch_fallback.1 thirdTimeLucky 0,
      request_retry_policy_and_fetch_fallback.2.1 thirdTimeLucky 0 2,
      request_retry_policy_and_fetch_fallback.2.2.1 thirdTimeLucky 0 2,
      (request_retry_policy_and_fetch_fallback.2.2.2.2.1 noKeyWorld
        thirdTimeLucky (by decide) (by decide) (by decide) (by decide)).1,
      (request_retry_policy_and_fetch_fallback.2.2.2.2.1 noKeyWorld
        thirdTimeLucky (by decide) (by decide) (by decide) (by decide)).2,
      request_retry_policy_and_fetch_fallback.2.2.2.2.2 noKeyWorld
        alwaysFail (by decide) (fun i => rfl)⟩

/-- C8 counterexample: an already-list-shaped input is only filtered,
never trimmed — `[" a "]` comes back as `[" a "]`, not the trimmed
`["a"]` the claim describes. -/
theorem parseArrayField_array_not_trimmed_cex :
    parseArrayField (.arr [" a "]) = [" a "] ∧
    jsTrim " a " = "a" ∧ (" a " : String) ≠ "a" := by
  decide

/-- C8 amended: a comma-separated string maps to the ordered list of
its trimmed non-empty segments (`"a, b ,c"` to `["a","b","c"]`), empty
or whitespace-only input maps to `[]`, and a list-shaped input keeps —
verbatim, without trimming — exactly its entries whose trimmed form is
non-empty, in order. -/
theorem parseArrayField_normalization (s : String) (l : List String)
    (hs : ¬jsTrim s = "") :
    parseArrayField (.str s) =
      ((jsSplitComma s).map jsTrim).filter (fun x => x != "") ∧
    (∀ x ∈ parseArrayField (.str s), x ≠ "") ∧
    (∀ s2 : String, jsTrim s2 = "" → parseArrayField (.str s2) = []) ∧
    parseArrayField (.str "a, b ,c") = ["a", "b", "c"] ∧
    parseArrayField (.str "   ") = [] ∧
    parseArrayField .other = [] ∧
    parseArrayField (.arr l) = l.filter (fun item => jsTrim item != "") ∧
    (∀ x ∈ parseArrayField (.arr l), jsTrim x ≠ "") := by
  refine ⟨by simp [parseArrayField, hs], ?_, ?_, by decide, by decide, rfl,
    rfl, ?_⟩
  · intro x hx
    have hb : (jsTrim s != "") = true := by simp [hs]
    simp only [parseArrayField, hb, if_true, List.mem_filter] at hx
    simpa using hx.2
  · intro s2 h2
    simp [parseArrayField, h2]
  · intro x hx
    simp only [parseArrayField, List.mem_filter] at hx
    simpa using hx.2

/-- Witness for the amended C8 at `"a, b ,c"` and `[" a ", " ", "b"]`. -/
theorem parseArrayField_normalization_witness :
    (¬jsTrim "a, b ,c" = "") ∧
    (parseArrayField (.str "a, b ,c") =
      ((jsSplitComma "a, b ,c").map jsTrim).filter (fun x => x != "") ∧
    (∀ x ∈ parseArrayField (.str "a, b ,c"), x ≠ "") ∧
    (∀ s2 : String, jsTrim s2 = "" → parseArrayField (.str s2) = []) ∧
    parseArrayField (.str "a, b ,c") = ["a", "b", "c"] ∧
    parseArrayField (.str "   ") = [] ∧
    parseArrayField .other = [] ∧
    parseArrayField (.arr [" a ", " ", "b"]) =
      [" a ", " ", "b"].filter (fun item => jsTrim item != "") ∧
    (∀ x ∈ parseArrayField (.arr [" a ", " ", "b"]), jsTrim x ≠ "")) :=
  ⟨by decide, parseArrayField_normalization "a, b ,c" [" a ", " ", "b"]
    (by decide)⟩

/-
Lexicographic comparison lemmas for date strings.
-/

theorem charListLt_irrefl (l : List Char) : charListLt l l = false := by
  induction l with
  | nil => rfl
  | cons c cs ih => simp [charListLt, ih, lt_irrefl]

theorem charListLt_trans {a b c : List Char} (h1 : charListLt a b = true)
    (h2 : charListLt b c = true) : charListLt a c = true := by
  induction a generalizing b c with
  | nil =>
    cases c with
    | nil =>
      cases b with
      | nil => simp [charListLt] at h1
      | cons y ys => simp [charListLt] at h2
    | cons z zs => rfl
  | cons x xs ih =>
    cases b with
    | nil => simp [charListLt] at h1
    | cons y ys =>
      cases c with
      | nil => simp [charListLt] at h2
      | cons z zs =>
        simp only [charListLt] at h1 h2 ⊢
        by_cases hxy : x < y
        · by_cases hyz : y < z
          · simp [lt_trans hxy hyz]
          · by_cases hzy : z < y
            · simp [hyz, hzy] at h2
            · have hez : y = z := le_antisymm (not_lt.mp hzy) (not_lt.mp hyz)
              subst hez
              simp [hxy]
        · by_cases hyx : y < x
          · simp [hxy, hyx] at h1
          · have hex : x = y := le_antisymm (not_lt.mp hyx) (not_lt.mp hxy)
            subst hex
            simp only [lt_irrefl, if_false] at h1 h2 ⊢
            by_cases hxz : x < z
            · simp [hxz]
            · by_cases hzx : z < x
              · simp [hxz, hzx] at h2
              · have hez : x = z := le_antisymm (not_lt.mp hzx) (not_lt.mp hxz)
                subst hez
                simp only [lt_irrefl, if_false] at h2 ⊢
                exact ih h1 h2

theorem dateLt_ne {a b : String} (h : dateLt a b = true) : a ≠ b := by
  intro he
  subst he
  rw [dateLt, charListLt_irrefl] at h
  exact Bool.false_ne_true h

theorem dateLt_trans {a b c : String} (h1 : dateLt a b = true)
    (h2 : dateLt b c = true) : dateLt a c = true :=
  charListLt_trans h1 h2

/-- C9: one `updateStreak` call leaves the count and the stored record
unchanged when the last active date is today; increments the count
when it is yesterday; resets the count to 1 when it is null or any
strictly earlier date than yesterday; and in the non-today cases
persists the new count with today as the last active date. -/
theorem updateStreak_transitions (today yesterday : String) (s : StreakData)
    (hlt : dateLt yesterday today = true) :
    (s.lastActiveDate = some today →
      updateStreak today yesterday s = (s.currentStreak, s)) ∧
    (s.lastActiveDate = some yesterday →
      updateStreak today yesterday s =
        (s.currentStreak + 1,
          { currentStreak := s.currentStreak + 1
            lastActiveDate := some today })) ∧
    (s.lastActiveDate = none →
      updateStreak today yesterday s =
        (1, { currentStreak := 1, lastActiveDate := some today })) ∧
    (∀ d, s.lastActiveDate = some d → dateLt d yesterday = true →
      updateStreak today yesterday s =
        (1, { currentStreak := 1, lastActiveDate := some today })) := by
  have hyt : yesterday ≠ today := dateLt_ne hlt
  refine ⟨fun h => by simp [updateStreak, h], fun h => ?_, fun h => ?_,
    fun d h hd => ?_⟩
  · simp [updateStreak, h, hyt]
  · simp [updateStreak, h]
  · have h1 : d ≠ yesterday := dateLt_ne hd
    have h2 : d ≠ today := dateLt_ne (dateLt_trans hd hlt)
    simp [updateStreak, h, h1, h2]

/-- Witness for C9: from count 3 on 2026-10-10 (yesterday), one call on
2026-10-11 yields 4 with today persisted; a second call the same day
leaves 4 unchanged; from 2026-10-01 (10 days earlier), a call resets
the count to 1. -/
theorem updateStreak_transitions_witness :
    (dateLt "2026-10-10" "2026-10-11" = true ∧
      dateLt "2026-10-01" "2026-10-10" = true) ∧
    (updateStreak "2026-10-11" "2026-10-10" ⟨3, some "2026-10-10"⟩ =
      (4, ⟨4, some "2026-10-11"⟩) ∧
    updateStreak "2026-10-11" "2026-10-10" ⟨4, some "2026-10-11"⟩ =
      (4, ⟨4, some "2026-10-11"⟩) ∧
    updateStreak "2026-10-11" "2026-10-10" ⟨3, some "2026-10-01"⟩ =
      (1, ⟨1, some "2026-10-11"⟩)) :=
  ⟨⟨by decide, by decide⟩,
    (updateStreak_transitions "2026-10-11" "2026-10-10" ⟨3, some "2026-10-10"⟩
      (by decide)).2.1 rfl,
    (updateStreak_transitions "2026-10-11" "2026-10-10" ⟨4, some "2026-10-11"⟩
      (by decide)).1 rfl,
    (updateStreak_transitions "2026-10-11" "2026-10-10" ⟨3, some "2026-10-01"⟩
      (by decide)).2.2.2 "2026-10-01" rfl (by decide)⟩

/-- C10: when the input's date is absent, the created word is dated
today but its number is computed against the raw `undefined` date —
`w.date === undefined` matches no stored word — so it is always 1, not
one plus the count of words dated today; on any collection already
holding a word dated today this breaks the contiguous per-date
numbering for today. -/
theorem addWord_absent_date_breaks_numbering (wordData : WordInput)
    (newId today createdAt : String) (allWords : List Word)
    (hd : wordData.date = none)
    (hex : ∃ x ∈ allWords, x.date = today) :
    (addWordPure wordData newId today createdAt allWords).1.date = today ∧
    (addWordPure wordData newId today createdAt allWords).1.wordNumber = 1 ∧
    (addWordPure wordData newId today createdAt allWords).1.wordNumber ≠
      (allWords.filter (fun x => x.date == today)).length + 1 ∧
    dateNumbering today
      (addWordPure wordData newId today createdAt allWords).2 = false := by
  obtain ⟨x0, hx0, hx0d⟩ := hex
  have hkpos : 0 < (allWords.filter (fun x => x.date == today)).length := by
    have hm : x0 ∈ allWords.filter (fun x => x.date == today) :=
      List.mem_filter.mpr ⟨hx0, by simp [hx0d]⟩
    exact List.length_pos.mpr (List.ne_nil_of_mem hm)
  have hnum :
      (addWordPure wordData newId today createdAt allWords).1.wordNumber = 1 := by
    simp only [addWordPure, getNextWordNumber, hd]
    have hemp :
        allWords.filter (fun w => some w.date == (none : Option String)) = [] := by
      apply List.filter_eq_nil_iff.mpr
      intro a _
      rw [show (some a.date == (none : Option String)) = false from rfl]
      exact Bool.false_ne_true
    rw [hemp]
    rfl
  have hdt :
      (addWordPure wordData newId today createdAt allWords).1.date = today := by
    simp [addWordPure, jsOrElse, hd]
  refine ⟨hdt, hnum, by rw [hnum]; omega, ?_⟩
  set nw := (addWordPure wordData newId today createdAt allWords).1 with hnw
  have hsnd : (addWordPure wordData newId today createdAt allWords).2 =
      allWords ++ [nw] := rfl
  rw [hsnd]
  have hcond : (nw.date == today) = true := by simp [hdt]
  have hfa : (allWords ++ [nw]).filter (fun w => w.date == today) =
      allWords.filter (fun w => w.date == today) ++ [nw] := by
    rw [List.filter_append]
    simp [List.filter_cons, hcond]
  rw [dateNumbering, beq_eq_false_iff_ne, hfa]
  intro heq
  have hlast := congrArg List.getLast? heq
  rw [List.map_append] at hlast
  simp only [List.map_cons, List.map_nil] at hlast
  rw [List.getLast?_concat] at hlast
  rw [List.getLast?_range'] at hlast
  have hlen : (allWords.filter (fun w => w.date == today) ++ [nw]).length =
      (allWords.filter (fun w => w.date == today)).length + 1 := by
    simp
  rw [hlen, if_neg (Nat.succ_ne_zero _)] at hlast
  simp only [Option.some.injEq] at hlast
  have hw1 : nw.wordNumber = 1 := hnum
  omega

/-- Witness for C10 at a one-word collection already holding a word
dated today (2026-10-11) with number 1. -/
theorem addWord_absent_date_breaks_numbering_witness :
    (sampleInputNoDate.date = none ∧
      (∃ x ∈ [sampleWord "a" "2026-10-11" 1], x.date = "2026-10-11")) ∧
    ((addWordPure sampleInputNoDate "b" "2026-10-11" "2026-10-11T10:00:00.000Z"
        [sampleWord "a" "2026-10-11" 1]).1.date = "2026-10-11" ∧
    (addWordPure sampleInputNoDate "b" "2026-10-11" "2026-10-11T10:00:00.000Z"
        [sampleWord "a" "2026-10-11" 1]).1.wordNumber = 1 ∧
    (addWordPure sampleInputNoDate "b" "2026-10-11" "2026-10-11T10:00:00.000Z"
        [sampleWord "a" "2026-10-11" 1]).1.wordNumber ≠
      ([sampleWord "a" "2026-10-11" 1].filter
        (fun x => x.date == "2026-10-11")).length + 1 ∧
    dateNumbering "2026-10-11"
      (addWordPure sampleInputNoDate "b" "2026-10-11" "2026-10-11T10:00:00.000Z"
        [sampleWord "a" "2026-10-11" 1]).2 = false) :=
  ⟨⟨by decide, by decide⟩,
    addWord_absent_date_breaks_numbering sampleInputNoDate "b" "2026-10-11"
      "2026-10-11T10:00:00.000Z" [sampleWord "a" "2026-10-11" 1]
      (by decide) (by decide)⟩

end VocabApp
